import Mathlib

/-
Verification development for the pygorpho repository (Python glue over a
CUDA morphology engine).  The Python layer under src/pygorpho (old API) and
src/src/pygorpho (new API) is embedded directly.  The CUDA compute engine
(libpygorpho) is not part of the repository sources available here, so the
engine semantics (brute-force flat/general kernels, tiling with halo, the
van Herk/Gil-Werman line kernel and the zonohedral ball approximator) are
modelled from the specification where noted.
-/

deriving instance DecidableEq for Except

namespace Pygorpho

/-- Positions and offsets in a 3D volume, in numpy axis order
(axis0, axis1, axis2). -/
abbrev Pos := ℤ × ℤ × ℤ

/-- Componentwise addition of positions/offsets. -/
def padd (p q : Pos) : Pos := (p.1 + q.1, p.2.1 + q.2.1, p.2.2 + q.2.2)

/-- Scalar multiple of a step vector, used by the line-segment kernel. -/
def smul (t : ℤ) (d : Pos) : Pos := (t * d.1, t * d.2.1, t * d.2.2)

/-- A dense 3D volume with rational sample values.  The data field is a total
function; the engine only ever reads it at in-bounds positions (reads are
routed through readPad/tileRead which bounds-check). -/
structure VolF where
  n0 : ℕ
  n1 : ℕ
  n2 : ℕ
  data : Pos → ℚ

/-- Bounds check for a position inside a volume. -/
def inVol (v : VolF) (p : Pos) : Bool :=
  decide (0 ≤ p.1 ∧ p.1 < (v.n0 : ℤ) ∧ 0 ≤ p.2.1 ∧ p.2.1 < (v.n1 : ℤ) ∧
    0 ≤ p.2.2 ∧ p.2.2 < (v.n2 : ℤ))

/-- Modelled from the spec: reading a volume with halo padding.  Out-of-volume
cells yield the absorbing identity value of the operation (the minus/plus
infinity equivalent of the element type), passed in as pad. -/
def readPad (v : VolF) (pad : ℚ) (p : Pos) : ℚ :=
  if inVol v p then v.data p else pad

/-- Center index of a structuring element axis (anchor defaults to the
geometric center, matching the engine convention observed in the tests). -/
def ctr (m : ℕ) : ℕ := (m - 1) / 2

/-- Half-extent of a structuring element axis: the largest offset magnitude
away from the anchor.  The tile scheduler sizes halos from this. -/
def hExt (m : ℕ) : ℕ := max (ctr m) (m - 1 - ctr m)

/-- All index triples of a dense m0 x m1 x m2 structuring element. -/
def idxList (m0 m1 m2 : ℕ) : List (ℕ × ℕ × ℕ) :=
  (List.range m0).flatMap (fun i =>
    (List.range m1).flatMap (fun j =>
      (List.range m2).map (fun k => (i, j, k))))

/-- Offset of a structuring-element cell relative to the anchor. -/
def offOf (m0 m1 m2 : ℕ) (ijk : ℕ × ℕ × ℕ) : Pos :=
  ((ijk.1 : ℤ) - (ctr m0 : ℤ), (ijk.2.1 : ℤ) - (ctr m1 : ℤ),
    (ijk.2.2 : ℤ) - (ctr m2 : ℤ))

/-- A flat (boolean) structuring element: dimensions plus inclusion mask over
index triples. -/
structure FlatStrel where
  m0 : ℕ
  m1 : ℕ
  m2 : ℕ
  mask : ℕ × ℕ × ℕ → Bool

/-- The included offsets of a flat structuring element, paired with a dummy
weight 0 (flat elements carry no additive weight). -/
def FlatStrel.items (S : FlatStrel) : List (Pos × ℚ) :=
  (idxList S.m0 S.m1 S.m2).filterMap (fun ijk =>
    if S.mask ijk then some (offOf S.m0 S.m1 S.m2 ijk, (0 : ℚ)) else none)

/-- A general (grayscale) structuring element: dimensions plus a weight for
every cell. -/
structure GenStrel where
  m0 : ℕ
  m1 : ℕ
  m2 : ℕ
  w : ℕ × ℕ × ℕ → ℚ

/-- The offsets of a general structuring element paired with their weights. -/
def GenStrel.items (S : GenStrel) : List (Pos × ℚ) :=
  (idxList S.m0 S.m1 S.m2).map (fun ijk =>
    (offOf S.m0 S.m1 S.m2 ijk, S.w ijk))

/-- Modelled from the spec: the per-voxel brute-force reduction of the
general/flat kernel.  read supplies (possibly padded or tiled) volume values,
g combines a value with a structuring-element weight, comb is the reduction
monoid (max for dilation, min for erosion) and init its identity. -/
def coreFold (read : Pos → ℚ) (comb : ℚ → ℚ → ℚ) (g : ℚ → ℚ → ℚ)
    (init : ℚ) (items : List (Pos × ℚ)) (p : Pos) : ℚ :=
  items.foldr (fun ow acc => comb (g (read (padd p ow.1)) ow.2) acc) init

/-- Reduction monoid of an operation: max for dilation, min for erosion. -/
def opComb (isDil : Bool) : ℚ → ℚ → ℚ := if isDil then max else min

/-- Identity/padding value of an operation, taken from the pair
(dilate pad, erode pad) supplied by the caller for the element type. -/
def padOf (isDil : Bool) (pads : ℚ × ℚ) : ℚ := if isDil then pads.1 else pads.2

/-- Weight combination of the general kernel: weights are added for dilation
and subtracted for erosion. -/
def genG (isDil : Bool) : ℚ → ℚ → ℚ := if isDil then (· + ·) else (· - ·)

/-- Whole-volume flat dilation/erosion at one voxel (single-pass reference
semantics). -/
def flatVoxel (v : VolF) (S : FlatStrel) (isDil : Bool) (pads : ℚ × ℚ)
    (p : Pos) : ℚ :=
  coreFold (readPad v (padOf isDil pads)) (opComb isDil) (fun x _ => x)
    (padOf isDil pads) S.items p

/-- Whole-volume general dilation/erosion at one voxel (single-pass reference
semantics, spec section 4.4). -/
def genVoxel (v : VolF) (S : GenStrel) (isDil : Bool) (pads : ℚ × ℚ)
    (p : Pos) : ℚ :=
  coreFold (readPad v (padOf isDil pads)) (opComb isDil) (genG isDil)
    (padOf isDil pads) S.items p

/-- Origin (smallest coordinate) of the block that contains coordinate x when
the axis is partitioned into non-overlapping blocks of size b. -/
def blkOrg (b : ℕ) (x : ℤ) : ℤ := (b : ℤ) * (x / (b : ℤ))

/-- Origin of the block containing position p for block size B. -/
def orgOf (B : ℕ × ℕ × ℕ) (p : Pos) : Pos :=
  (blkOrg B.1 p.1, blkOrg B.2.1 p.2.1, blkOrg B.2.2 p.2.2)

/-- One-axis membership test for the tile (block plus halo of size h). -/
def tin (g : ℤ) (bsz h : ℕ) (q : ℤ) : Bool :=
  decide (g - (h : ℤ) ≤ q ∧ q ≤ g + (bsz : ℤ) - 1 + (h : ℤ))

/-- Modelled from the spec: reading the staged tile of a block.  The tile
covers the block enlarged by the halo H on every side; cells inside the tile
are filled from the volume (clipped, with out-of-volume cells set to the
absorbing identity pad), anything outside the tile is never staged. -/
def tileRead (v : VolF) (pad : ℚ) (g : Pos) (B H : ℕ × ℕ × ℕ) (q : Pos) : ℚ :=
  if tin g.1 B.1 H.1 q.1 && tin g.2.1 B.2.1 H.2.1 q.2.1 &&
      tin g.2.2 B.2.2 H.2.2 q.2.2 then
    readPad v pad q
  else pad

/-- Halo sizes demanded by a flat structuring element. -/
def flatHalf (S : FlatStrel) : ℕ × ℕ × ℕ := (hExt S.m0, hExt S.m1, hExt S.m2)

/-- Halo sizes demanded by a general structuring element. -/
def genHalf (S : GenStrel) : ℕ × ℕ × ℕ := (hExt S.m0, hExt S.m1, hExt S.m2)

/-- Modelled from the spec: blocked execution of the flat kernel.  Every
output voxel is computed from the staged tile of the block that contains it,
and the per-block results are stitched into one output volume. -/
def blockedFlatVoxel (v : VolF) (S : FlatStrel) (isDil : Bool) (pads : ℚ × ℚ)
    (B : ℕ × ℕ × ℕ) (p : Pos) : ℚ :=
  coreFold (tileRead v (padOf isDil pads) (orgOf B p) B (flatHalf S))
    (opComb isDil) (fun x _ => x) (padOf isDil pads) S.items p

/-- Modelled from the spec: blocked execution of the general kernel. -/
def blockedGenVoxel (v : VolF) (S : GenStrel) (isDil : Bool) (pads : ℚ × ℚ)
    (B : ℕ × ℕ × ℕ) (p : Pos) : ℚ :=
  coreFold (tileRead v (padOf isDil pads) (orgOf B p) B (genHalf S))
    (opComb isDil) (genG isDil) (padOf isDil pads) S.items p

/-- The stitched output volume of a blocked flat dilation/erosion. -/
def blockedFlatVol (v : VolF) (S : FlatStrel) (isDil : Bool) (pads : ℚ × ℚ)
    (B : ℕ × ℕ × ℕ) : VolF :=
  ⟨v.n0, v.n1, v.n2, fun p => blockedFlatVoxel v S isDil pads B p⟩

/-- The stitched output volume of a blocked general dilation/erosion. -/
def blockedGenVol (v : VolF) (S : GenStrel) (isDil : Bool) (pads : ℚ × ℚ)
    (B : ℕ × ℕ × ℕ) : VolF :=
  ⟨v.n0, v.n1, v.n2, fun p => blockedGenVoxel v S isDil pads B p⟩

/-- Elementwise difference of two volumes of the same dimensions. -/
def volSub (a b : VolF) : VolF :=
  ⟨a.n0, a.n1, a.n2, fun p => a.data p - b.data p⟩

/-- A valid block-size hint: three positive integers (spec section 6). -/
def validB (B : ℕ × ℕ × ℕ) : Prop := 0 < B.1 ∧ 0 < B.2.1 ∧ 0 < B.2.2

instance (B : ℕ × ℕ × ℕ) : Decidable (validB B) :=
  inferInstanceAs (Decidable (0 < B.1 ∧ 0 < B.2.1 ∧ 0 < B.2.2))

/-- Modelled from the spec: the engine entry behind flat_morph_op_impl
(pyFlatMorphOp), which is not in src/.  DILATE and ERODE are the blocked
primitives; OPEN, CLOSE, TOPHAT and BOTHAT are composed from them with an
elementwise subtraction for the hat transforms (spec section 4.6). -/
def flatEngineOp (v : VolF) (S : FlatStrel) (op : ℤ) (B : ℕ × ℕ × ℕ)
    (pads : ℚ × ℚ) : VolF :=
  if op = 0 then blockedFlatVol v S true pads B
  else if op = 1 then blockedFlatVol v S false pads B
  else if op = 2 then blockedFlatVol (blockedFlatVol v S false pads B) S true pads B
  else if op = 3 then blockedFlatVol (blockedFlatVol v S true pads B) S false pads B
  else if op = 4 then
    volSub v (blockedFlatVol (blockedFlatVol v S false pads B) S true pads B)
  else if op = 5 then
    volSub (blockedFlatVol (blockedFlatVol v S true pads B) S false pads B) v
  else v

/-- Modelled from the spec: the engine entry behind gen_dilate_erode_impl
(pyGenDilateErode), which is not in src/. -/
def genEngine (v : VolF) (S : GenStrel) (op : ℤ) (B : ℕ × ℕ × ℕ)
    (pads : ℚ × ℚ) : VolF :=
  if op = 0 then blockedGenVol v S true pads B else blockedGenVol v S false pads B

/-- Window offsets of a line segment of the given length, centered on the
anchor like the dense elements (for length L the window spans the L
multiples of the step from -((L-1)/2) to (L-1) - (L-1)/2, matching the
extents observed in the test suite). -/
def lineWin (len : ℤ) : List ℤ :=
  (List.range len.toNat).map (fun k => (k : ℤ) - (((len.toNat - 1) / 2 : ℕ) : ℤ))

/-- Modelled from the spec: one pass of the line-segment (van Herk/Gil-Werman)
kernel.  The pass computes the sliding window extremum along the step
direction; a segment of length 0 (or less) is a no-op pass-through.  Only
the whole-volume extensional semantics of the pass is modelled; the spec
guarantees the blocked execution is bit-identical to it. -/
def linePass (v : VolF) (d : Pos) (len : ℤ) (isDil : Bool)
    (pads : ℚ × ℚ) : VolF :=
  if len ≤ 0 then v
  else
    ⟨v.n0, v.n1, v.n2, fun p =>
      ((lineWin len).map (fun t =>
        readPad v (padOf isDil pads) (padd p (smul t d)))).foldr
        (opComb isDil) (padOf isDil pads)⟩

/-- Modelled from the spec: the engine entry behind
flat_linear_dilate_erode_impl (pyFlatLinearDilateErode), which is not in
src/.  Segments are applied strictly sequentially; each step vector
(sx, sy, sz) received from the binding moves the fastest-varying numpy axis
by sx, so as a position delta it acts as (sz, sy, sx).  The wrappers below
perform that reordering when they parse their step rows. -/
def linEngine (v : VolF) (segs : List (Pos × ℤ)) (isDil : Bool)
    (pads : ℚ × ℚ) : VolF :=
  segs.foldl (fun acc s => linePass acc s.1 s.2 isDil pads) v

/-- Python exception kinds raised by the binding layer. -/
inductive PyErr where
  | assertionError : PyErr
  | valueError : String → PyErr
  | runtimeError : String → PyErr
deriving DecidableEq, Repr

/-- Outcome of calling raise_on_error: either an exception is raised, or the
function returns normally carrying its return value (None, or an exception
object that was built but never raised). -/
inductive RaiseOutcome where
  | raised : PyErr → RaiseOutcome
  | retvalue : Option PyErr → RaiseOutcome
deriving DecidableEq, Repr

/-- Embedding of raise_on_error from src/pygorpho/_thin.py.  Note the source
uses a return statement instead of a raise statement for error codes 4 and
5, so for those codes the RuntimeError object is returned, not raised. -/
def raise_on_error (error_code : ℤ) : RaiseOutcome :=
  if error_code = 0 then .retvalue none
  else if error_code = 1 then .raised (.valueError "invalid morhology operation code")
  else if error_code = 2 then .raised (.valueError "invalid type")
  else if error_code = 3 then .raised (.valueError "invalid device number")
  else if error_code = 4 then .retvalue (some (.runtimeError "no CUDA device available"))
  else if error_code = 5 then .retvalue (some (.runtimeError "an unaught C++ exception occured"))
  else .raised (.valueError "invalid error code")

/-- How a wrapper behaves after the engine returns status code: it calls
raise_on_error and, if that raises, the exception propagates; otherwise the
wrapper goes on to return its result volume. -/
def runWithStatus {α : Type} (code : ℤ) (x : α) : Except PyErr α :=
  match raise_on_error code with
  | .raised e => .error e
  | .retvalue _ => .ok x

/-- Element types relevant to the cast behavior of the general wrappers. -/
inductive Dtype where
  | intT : Dtype
  | floatT : Dtype
deriving DecidableEq, Repr

/-- Truncation toward zero, the C cast semantics numpy applies when casting
a floating-point value to an integer type. -/
def ratTrunc (q : ℚ) : ℤ := Int.tdiv q.num (q.den : ℤ)

/-- Value cast performed by numpy asarray with an explicit dtype. -/
def castQ (d : Dtype) (q : ℚ) : ℚ :=
  match d with
  | .intT => ((ratTrunc q : ℤ) : ℚ)
  | .floatT => q

/-- A host-language ndarray: a shape and the C-contiguous flat data. -/
structure NDArr where
  shape : List ℕ
  data : List ℚ
deriving DecidableEq, Repr

/-- A host-language ndarray together with its element type tag. -/
structure TypedArr where
  dtype : Dtype
  shape : List ℕ
  data : List ℚ
deriving DecidableEq, Repr

/-- Embedding of numpy asarray with dtype: the result carries the requested
dtype and every value is cast to it. -/
def castArr (d : Dtype) (a : NDArr) : TypedArr :=
  ⟨d, a.shape, a.data.map (castQ d)⟩

/-- Shape promotion of numpy atleast_3d for inputs of at most 3 dimensions
(0d to (1,1,1), (n) to (1,n,1), (m,n) to (m,n,1), 3d unchanged).  For higher
ranks the wrappers read only the first three entries of the shape, which is
what the bindings pass to the engine. -/
def atleast3dShape : List ℕ → ℕ × ℕ × ℕ
  | [] => (1, 1, 1)
  | [a] => (1, a, 1)
  | [a, b] => (a, b, 1)
  | a :: b :: c :: _ => (a, b, c)

/-- Total element count of a 3D shape. -/
def prod3 (s : ℕ × ℕ × ℕ) : ℕ := s.1 * (s.2.1 * s.2.2)

/-- C-order flat index of an index triple in a 3D shape. -/
def flatIdx (s : ℕ × ℕ × ℕ) (ijk : ℕ × ℕ × ℕ) : ℕ :=
  (ijk.1 * s.2.1 + ijk.2.1) * s.2.2 + ijk.2.2

/-- View a C-contiguous buffer as a function volume of the given 3D shape. -/
def toVolF (s : ℕ × ℕ × ℕ) (d : List ℚ) : VolF :=
  ⟨s.1, s.2.1, s.2.2, fun p =>
    if 0 ≤ p.1 ∧ 0 ≤ p.2.1 ∧ 0 ≤ p.2.2 then
      d.getD ((p.1.toNat * s.2.1 + p.2.1.toNat) * s.2.2 + p.2.2.toNat) 0
    else 0⟩

/-- Read a function volume back into a C-contiguous buffer. -/
def fromVolF (v : VolF) : List ℚ :=
  (List.range v.n0).flatMap (fun i =>
    (List.range v.n1).flatMap (fun j =>
      (List.range v.n2).map (fun k => v.data (Int.ofNat i, Int.ofNat j, Int.ofNat k))))

/-- Embedding of numpy resize: produce a buffer of exactly n elements by
cycling the input data (an empty input yields zeros, as numpy does). -/
def resizeData (n : ℕ) (l : List ℚ) : List ℚ :=
  (List.range n).map (fun i => l.getD (i % l.length) 0)

/-- Operation code DILATE (value 0, from _thin.py, matching pygorpho.cuh). -/
def DILATE : ℤ := 0

/-- Operation code ERODE (value 1, from _thin.py, matching pygorpho.cuh). -/
def ERODE : ℤ := 1

/-- Modelled from the spec: operation code OPEN.  The new-layout _thin.py
that defines it is not in src/; only its membership in the defined set and
distinctness matter here. -/
def OPEN : ℤ := 2

/-- Modelled from the spec: operation code CLOSE (see OPEN). -/
def CLOSE : ℤ := 3

/-- Modelled from the spec: operation code TOPHAT (see OPEN). -/
def TOPHAT : ℤ := 4

/-- Modelled from the spec: operation code BOTHAT (see OPEN). -/
def BOTHAT : ℤ := 5

/-- Embedding of flat.morph from src/src/pygorpho/flat.py: assert the
operation code, coerce the structuring element to boolean (nonzero means
included), promote shapes to 3D, run the engine, and resize the result
buffer back to the original shape.  pads carries the dtype-specific
absorbing identity values used by the engine. -/
def flat_morph (pads : ℚ × ℚ) (vol : NDArr) (strel : NDArr) (op : ℤ)
    (block_size : ℕ × ℕ × ℕ) : Except PyErr NDArr :=
  if op = 0 ∨ op = 1 ∨ op = 2 ∨ op = 3 ∨ op = 4 ∨ op = 5 then
    let old_shape := vol.shape
    let vs := atleast3dShape vol.shape
    let ss := atleast3dShape strel.shape
    let vF := toVolF vs vol.data
    let S : FlatStrel :=
      ⟨ss.1, ss.2.1, ss.2.2, fun ijk => decide (strel.data.getD (flatIdx ss ijk) 0 ≠ 0)⟩
    let rF := flatEngineOp vF S op block_size pads
    runWithStatus 0 ⟨old_shape, resizeData old_shape.prod (fromVolF rF)⟩
  else .error .assertionError

/-- Embedding of gen.morph from src/src/pygorpho/gen.py (the old
gen.dilate_erode has the same body): assert the operation code, cast the
structuring element to the dtype of the volume, assert the dtypes agree,
run the engine and resize back. -/
def gen_morph (pads : ℚ × ℚ) (vol : TypedArr) (strel : NDArr) (op : ℤ)
    (block_size : ℕ × ℕ × ℕ) : Except PyErr TypedArr :=
  if op = 0 ∨ op = 1 then
    let old_shape := vol.shape
    let sc := castArr vol.dtype strel
    if vol.dtype = sc.dtype then
      let vs := atleast3dShape vol.shape
      let ss := atleast3dShape sc.shape
      let vF := toVolF vs vol.data
      let S : GenStrel :=
        ⟨ss.1, ss.2.1, ss.2.2, fun ijk => sc.data.getD (flatIdx ss ijk) 0⟩
      let rF := genEngine vF S op block_size pads
      runWithStatus 0 ⟨vol.dtype, old_shape, resizeData old_shape.prod (fromVolF rF)⟩
    else .error .assertionError
  else .error .assertionError

/-- Embedding of gen.dilate: morph with the DILATE code. -/
def gen_dilate (pads : ℚ × ℚ) (vol : TypedArr) (strel : NDArr)
    (block_size : ℕ × ℕ × ℕ) : Except PyErr TypedArr :=
  gen_morph pads vol strel DILATE block_size

/-- Embedding of gen.erode: morph with the ERODE code. -/
def gen_erode (pads : ℚ × ℚ) (vol : TypedArr) (strel : NDArr)
    (block_size : ℕ × ℕ × ℕ) : Except PyErr TypedArr :=
  gen_morph pads vol strel ERODE block_size

/-- Embedding of gen.open: erode, then dilate the result (exceptions
propagate). -/
def genOpen (pads : ℚ × ℚ) (vol : TypedArr) (strel : NDArr)
    (block_size : ℕ × ℕ × ℕ) : Except PyErr TypedArr :=
  (gen_erode pads vol strel block_size).bind fun res =>
    gen_dilate pads res strel block_size

/-- Embedding of gen.close: dilate, then erode the result. -/
def genClose (pads : ℚ × ℚ) (vol : TypedArr) (strel : NDArr)
    (block_size : ℕ × ℕ × ℕ) : Except PyErr TypedArr :=
  (gen_dilate pads vol strel block_size).bind fun res =>
    gen_erode pads res strel block_size

/-- Elementwise numpy subtraction of two arrays of identical shape; the
result keeps the dtype of the left operand. -/
def tsub (a b : TypedArr) : TypedArr :=
  ⟨a.dtype, a.shape, List.zipWith (· - ·) a.data b.data⟩

/-- Embedding of gen.tophat: the input minus its opening. -/
def genTophat (pads : ℚ × ℚ) (vol : TypedArr) (strel : NDArr)
    (block_size : ℕ × ℕ × ℕ) : Except PyErr TypedArr :=
  (genOpen pads vol strel block_size).map fun o => tsub vol o

/-- Embedding of gen.bothat: the closing minus the input. -/
def genBothat (pads : ℚ × ℚ) (vol : TypedArr) (strel : NDArr)
    (block_size : ℕ × ℕ × ℕ) : Except PyErr TypedArr :=
  (genClose pads vol strel block_size).map fun c => tsub c vol

/-- Parse one step row, already in position-delta (numpy axis) order. -/
def rowToPos (r : List ℤ) : Pos := (r.getD 0 0, r.getD 1 0, r.getD 2 0)

/-- Embedding of flat.linear_morph from src/src/pygorpho/flat.py: assert the
operation code and the step-array shape, flip each step row before handing
it to the engine (the engine reads rows in reversed axis order, so the flip
makes each row act directly as a numpy-axis delta), run the sequential line
kernel and resize back. -/
def linear_morph (pads : ℚ × ℚ) (vol : NDArr) (line_steps : List (List ℤ))
    (line_lens : List ℤ) (op : ℤ) (block_size : ℕ × ℕ × ℕ) :
    Except PyErr NDArr :=
  if op = 0 ∨ op = 1 then
    if ∀ r ∈ line_steps, r.length = 3 then
      if line_steps.length = line_lens.length then
        let old_shape := vol.shape
        let vs := atleast3dShape vol.shape
        let vF := toVolF vs vol.data
        let segs := List.zip (line_steps.map rowToPos) line_lens
        let rF := linEngine vF segs (op = 0) pads
        runWithStatus 0 ⟨old_shape, resizeData old_shape.prod (fromVolF rF)⟩
      else .error .assertionError
    else .error .assertionError
  else .error .assertionError

/-- Embedding of flat.linear_dilate_erode from src/pygorpho/flat.py (old
API): same engine call but the step rows are passed through unflipped, so a
row acts as a position delta with its coordinates reversed.  The old API
does not assert that rows have three entries; it only requires a regular
(non-jagged) step array, which numpy asarray enforces. -/
def linear_dilate_erode (pads : ℚ × ℚ) (vol : NDArr)
    (line_steps : List (List ℤ)) (line_lens : List ℤ) (op : ℤ)
    (block_size : ℕ × ℕ × ℕ) : Except PyErr NDArr :=
  if op = 0 ∨ op = 1 then
    if ∀ r ∈ line_steps, r.length = (line_steps.headD []).length then
      if line_steps.length = line_lens.length then
        let old_shape := vol.shape
        let vs := atleast3dShape vol.shape
        let vF := toVolF vs vol.data
        let segs := List.zip (line_steps.map fun r => rowToPos r.reverse) line_lens
        let rF := linEngine vF segs (op = 0) pads
        runWithStatus 0 ⟨old_shape, resizeData old_shape.prod (fromVolF rF)⟩
      else .error .assertionError
    else .error .assertionError
  else .error .assertionError

/-- Embedding of flat.linear_dilate. -/
def linear_dilate (pads : ℚ × ℚ) (vol : NDArr) (line_steps : List (List ℤ))
    (line_lens : List ℤ) (block_size : ℕ × ℕ × ℕ) : Except PyErr NDArr :=
  linear_morph pads vol line_steps line_lens DILATE block_size

/-- Embedding of flat.linear_erode. -/
def linear_erode (pads : ℚ × ℚ) (vol : NDArr) (line_steps : List (List ℤ))
    (line_lens : List ℤ) (block_size : ℕ × ℕ × ℕ) : Except PyErr NDArr :=
  linear_morph pads vol line_steps line_lens ERODE block_size

/-- Embedding of flat.linear_open: linear erosion, then linear dilation. -/
def linearOpen (pads : ℚ × ℚ) (vol : NDArr) (line_steps : List (List ℤ))
    (line_lens : List ℤ) (block_size : ℕ × ℕ × ℕ) : Except PyErr NDArr :=
  (linear_erode pads vol line_steps line_lens block_size).bind fun res =>
    linear_dilate pads res line_steps line_lens block_size

/-- Embedding of flat.linear_close: linear dilation, then linear erosion. -/
def linearClose (pads : ℚ × ℚ) (vol : NDArr) (line_steps : List (List ℤ))
    (line_lens : List ℤ) (block_size : ℕ × ℕ × ℕ) : Except PyErr NDArr :=
  (linear_dilate pads vol line_steps line_lens block_size).bind fun res =>
    linear_erode pads res line_steps line_lens block_size

/-- Elementwise numpy subtraction of two untyped arrays of the same shape. -/
def nsub (a b : NDArr) : NDArr :=
  ⟨a.shape, List.zipWith (· - ·) a.data b.data⟩

/-- Embedding of flat.linear_tophat: the input minus its linear opening. -/
def linearTophat (pads : ℚ × ℚ) (vol : NDArr) (line_steps : List (List ℤ))
    (line_lens : List ℤ) (block_size : ℕ × ℕ × ℕ) : Except PyErr NDArr :=
  (linearOpen pads vol line_steps line_lens block_size).map fun o => nsub vol o

/-- Embedding of flat.linear_bothat: the linear closing minus the input. -/
def linearBothat (pads : ℚ × ℚ) (vol : NDArr) (line_steps : List (List ℤ))
    (line_lens : List ℤ) (block_size : ℕ × ℕ × ℕ) : Except PyErr NDArr :=
  (linearClose pads vol line_steps line_lens block_size).map fun c => nsub c vol

/-- The fixed 13 primitive step directions of the zonohedral ball
approximation (axes, face diagonals and space diagonals of the cube),
written as rows of three integers as the binding returns them. -/
def ballSteps : List (List ℤ) :=
  [[1, 0, 0], [0, 1, 0], [0, 0, 1],
   [1, 1, 0], [1, -1, 0], [1, 0, 1], [1, 0, -1], [0, 1, 1], [0, 1, -1],
   [1, 1, 1], [1, 1, -1], [1, -1, 1], [1, -1, -1]]

/-- Modelled from the spec: the per-direction integer length computed by the
zonohedral approximation in the CUDA library (pyFlatBallApproxStrel), which
is not in src/.  The spec fixes only the segment count, the direction
structure, and that radius 0 yields all-zero lengths; the numeric formula
below is a stand-in with those properties (nsq is the squared norm of the
direction). -/
def zonoLen (radius : ℤ) (mode : ℤ) (nsq : ℤ) : ℤ :=
  if radius ≤ 0 then 0
  else (2 * radius + (if mode = 0 then 0 else if mode = 1 then 3 else 6)) / (7 * nsq)

/-- The 13 line lengths returned by the ball approximation. -/
def ballLens (radius mode : ℤ) : List ℤ :=
  ballSteps.map fun d => zonoLen radius mode (d.foldr (fun a s => a * a + s) 0)

/-- Embedding of strel.flatBallApprox from src/src/pygorpho/strel.py: assert
the approximation mode, allocate the fixed 13 x 3 step array and the 13
lengths, let the engine fill them, and return both. -/
def flatBallApprox (radius : ℤ) (mode : ℤ) :
    Except PyErr (List (List ℤ) × List ℤ) :=
  if mode = 0 ∨ mode = 1 ∨ mode = 2 then
    runWithStatus 0 (ballSteps, ballLens radius mode)
  else .error .assertionError

/-- Neutral padding pair used when instantiating theorems on examples. -/
def pads0 : ℚ × ℚ := (0, 0)

/-- A small concrete function volume used by example instantiations. -/
def exVol : VolF := ⟨2, 1, 1, fun p => if p.1 = 0 then 3 else 7⟩

/-- A single-cell flat structuring element used by example instantiations. -/
def exFlat : FlatStrel := ⟨1, 1, 1, fun _ => true⟩

/-- A single-cell general structuring element used by example
instantiations. -/
def exGen : GenStrel := ⟨1, 1, 1, fun _ => 1⟩

/-- A small concrete ndarray volume used by example instantiations. -/
def ndVol : NDArr := ⟨[2], [-5, 7]⟩

/-- A single-cell ndarray structuring element used by example
instantiations. -/
def ndStrel : NDArr := ⟨[1], [1]⟩

/-- An integer-typed concrete volume used by example instantiations. -/
def volW : TypedArr := ⟨.intT, [1], [2]⟩

/-- A fractional structuring element (single value 7/2) used by example
instantiations. -/
def strelW : NDArr := ⟨[1], [Rat.mk' 7 2]⟩

/-- A unit block-size hint. -/
def b111 : ℕ × ℕ × ℕ := (1, 1, 1)

/-- A mixed block-size hint. -/
def b234 : ℕ × ℕ × ℕ := (2, 3, 4)

end Pygorpho

namespace Pygorpho

theorem coreFold_congr : ∀ (items : List (Pos × ℚ)) {read1 read2 : Pos → ℚ}
    (comb g : ℚ → ℚ → ℚ) (init : ℚ) (p : Pos),
    (∀ ow ∈ items, read1 (padd p ow.1) = read2 (padd p ow.1)) →
    coreFold read1 comb g init items p = coreFold read2 comb g init items p := by
  intro items
  induction items with
  | nil => intro _ _ _ _ _ _ _; rfl
  | cons a t ih =>
    intro read1 read2 comb g init p h
    unfold coreFold
    simp only [List.foldr_cons]
    rw [h a (List.mem_cons_self a t)]
    have ht := ih comb g init p (fun ow hw => h ow (List.mem_cons_of_mem a hw))
    unfold coreFold at ht
    rw [ht]

theorem blkOrg_bounds {b : ℕ} (hb : 0 < b) (x : ℤ) :
    blkOrg b x ≤ x ∧ x ≤ blkOrg b x + b - 1 := by
  have hbz : ((b : ℤ)) ≠ 0 := by exact_mod_cast Nat.pos_iff_ne_zero.mp hb
  have hbp : (0 : ℤ) < (b : ℤ) := by exact_mod_cast hb
  have h1 := Int.ediv_add_emod x (b : ℤ)
  have h2 := Int.emod_nonneg x hbz
  have h3 := Int.emod_lt_of_pos x hbp
  have hq : blkOrg b x = x - x % (b : ℤ) := by unfold blkOrg; linarith
  constructor
  · rw [hq]; linarith
  · rw [hq]; linarith

theorem tin_blk {b h : ℕ} (hb : 0 < b) (x o : ℤ)
    (h1 : -(h : ℤ) ≤ o) (h2 : o ≤ (h : ℤ)) :
    tin (blkOrg b x) b h (x + o) = true := by
  obtain ⟨hl, hr⟩ := blkOrg_bounds hb x
  unfold tin
  simp only [decide_eq_true_eq]
  constructor <;> linarith

theorem mem_idxList {m0 m1 m2 : ℕ} {ijk : ℕ × ℕ × ℕ}
    (h : ijk ∈ idxList m0 m1 m2) :
    ijk.1 < m0 ∧ ijk.2.1 < m1 ∧ ijk.2.2 < m2 := by
  simp only [idxList, List.mem_flatMap, List.mem_map, List.mem_range] at h
  obtain ⟨i, hi, j, hj, k, hk, heq⟩ := h
  subst heq
  exact ⟨hi, hj, hk⟩

theorem offOf_bounds {m0 m1 m2 : ℕ} {ijk : ℕ × ℕ × ℕ}
    (h : ijk ∈ idxList m0 m1 m2) :
    (-(hExt m0 : ℤ) ≤ (offOf m0 m1 m2 ijk).1 ∧ (offOf m0 m1 m2 ijk).1 ≤ (hExt m0 : ℤ))
    ∧ (-(hExt m1 : ℤ) ≤ (offOf m0 m1 m2 ijk).2.1 ∧ (offOf m0 m1 m2 ijk).2.1 ≤ (hExt m1 : ℤ))
    ∧ (-(hExt m2 : ℤ) ≤ (offOf m0 m1 m2 ijk).2.2 ∧ (offOf m0 m1 m2 ijk).2.2 ≤ (hExt m2 : ℤ)) := by
  obtain ⟨h0, h1, h2⟩ := mem_idxList h
  have e0a : ctr m0 ≤ hExt m0 := le_max_left _ _
  have e0b : m0 - 1 - ctr m0 ≤ hExt m0 := le_max_right _ _
  have e1a : ctr m1 ≤ hExt m1 := le_max_left _ _
  have e1b : m1 - 1 - ctr m1 ≤ hExt m1 := le_max_right _ _
  have e2a : ctr m2 ≤ hExt m2 := le_max_left _ _
  have e2b : m2 - 1 - ctr m2 ≤ hExt m2 := le_max_right _ _
  unfold offOf
  refine ⟨⟨?_, ?_⟩, ⟨?_, ?_⟩, ⟨?_, ?_⟩⟩ <;> simp only <;> omega

theorem flat_items_bounds (S : FlatStrel) {ow : Pos × ℚ} (h : ow ∈ S.items) :
    (-(hExt S.m0 : ℤ) ≤ ow.1.1 ∧ ow.1.1 ≤ (hExt S.m0 : ℤ))
    ∧ (-(hExt S.m1 : ℤ) ≤ ow.1.2.1 ∧ ow.1.2.1 ≤ (hExt S.m1 : ℤ))
    ∧ (-(hExt S.m2 : ℤ) ≤ ow.1.2.2 ∧ ow.1.2.2 ≤ (hExt S.m2 : ℤ)) := by
  simp only [FlatStrel.items, List.mem_filterMap] at h
  obtain ⟨ijk, hijk, hsome⟩ := h
  by_cases hm : S.mask ijk
  · rw [if_pos hm] at hsome
    have heq := Option.some.inj hsome
    rw [← heq]
    exact offOf_bounds hijk
  · rw [if_neg hm] at hsome
    exact Option.noConfusion hsome

theorem gen_items_bounds (S : GenStrel) {ow : Pos × ℚ} (h : ow ∈ S.items) :
    (-(hExt S.m0 : ℤ) ≤ ow.1.1 ∧ ow.1.1 ≤ (hExt S.m0 : ℤ))
    ∧ (-(hExt S.m1 : ℤ) ≤ ow.1.2.1 ∧ ow.1.2.1 ≤ (hExt S.m1 : ℤ))
    ∧ (-(hExt S.m2 : ℤ) ≤ ow.1.2.2 ∧ ow.1.2.2 ≤ (hExt S.m2 : ℤ)) := by
  simp only [GenStrel.items, List.mem_map] at h
  obtain ⟨ijk, hijk, heq⟩ := h
  rw [← heq]
  exact offOf_bounds hijk

theorem tileRead_eq {v : VolF} {pad : ℚ} {B H : ℕ × ℕ × ℕ} (hB : validB B)
    (p o : Pos)
    (h0 : -(H.1 : ℤ) ≤ o.1 ∧ o.1 ≤ (H.1 : ℤ))
    (h1 : -(H.2.1 : ℤ) ≤ o.2.1 ∧ o.2.1 ≤ (H.2.1 : ℤ))
    (h2 : -(H.2.2 : ℤ) ≤ o.2.2 ∧ o.2.2 ≤ (H.2.2 : ℤ)) :
    tileRead v pad (orgOf B p) B H (padd p o) = readPad v pad (padd p o) := by
  unfold tileRead
  rw [if_pos]
  simp only [orgOf, padd, Bool.and_eq_true]
  exact ⟨⟨tin_blk hB.1 p.1 o.1 h0.1 h0.2, tin_blk hB.2.1 p.2.1 o.2.1 h1.1 h1.2⟩,
    tin_blk hB.2.2 p.2.2 o.2.2 h2.1 h2.2⟩

theorem blockedFlatVoxel_eq (v : VolF) (S : FlatStrel) (isDil : Bool)
    (pads : ℚ × ℚ) (B : ℕ × ℕ × ℕ) (p : Pos) (hB : validB B) :
    blockedFlatVoxel v S isDil pads B p = flatVoxel v S isDil pads p := by
  unfold blockedFlatVoxel flatVoxel
  apply coreFold_congr
  intro ow hw
  obtain ⟨b0, b1, b2⟩ := flat_items_bounds S hw
  exact tileRead_eq hB p ow.1 b0 b1 b2

theorem blockedGenVoxel_eq (v : VolF) (S : GenStrel) (isDil : Bool)
    (pads : ℚ × ℚ) (B : ℕ × ℕ × ℕ) (p : Pos) (hB : validB B) :
    blockedGenVoxel v S isDil pads B p = genVoxel v S isDil pads p := by
  unfold blockedGenVoxel genVoxel
  apply coreFold_congr
  intro ow hw
  obtain ⟨b0, b1, b2⟩ := gen_items_bounds S hw
  exact tileRead_eq hB p ow.1 b0 b1 b2

/-- C1: for every volume, structuring element (flat or general), operation
(dilation or erosion) and any two valid block-size hints, the blocked,
stitched output is identical voxel for voxel; likewise for an operation
composed from the primitives (opening, shown as erosion followed by
dilation of the stitched volumes).  Block size is never a correctness
knob. -/
theorem tiling_block_size_invariance (v : VolF) (Sf : FlatStrel)
    (Sg : GenStrel) (isDil : Bool) (pads : ℚ × ℚ) (B1 B2 : ℕ × ℕ × ℕ)
    (h1 : validB B1) (h2 : validB B2) :
    (∀ p, blockedFlatVoxel v Sf isDil pads B1 p = blockedFlatVoxel v Sf isDil pads B2 p)
    ∧ (∀ p, blockedGenVoxel v Sg isDil pads B1 p = blockedGenVoxel v Sg isDil pads B2 p)
    ∧ blockedFlatVol (blockedFlatVol v Sf false pads B1) Sf true pads B1
      = blockedFlatVol (blockedFlatVol v Sf false pads B2) Sf true pads B2 := by
  have hf : ∀ (w : VolF) (d : Bool) (B : ℕ × ℕ × ℕ), validB B →
      ∀ p, blockedFlatVoxel w Sf d pads B p = flatVoxel w Sf d pads p :=
    fun w d B hB p => blockedFlatVoxel_eq w Sf d pads B p hB
  refine ⟨fun p => ?_, fun p => ?_, ?_⟩
  · rw [hf v isDil B1 h1, hf v isDil B2 h2]
  · rw [blockedGenVoxel_eq v Sg isDil pads B1 p h1,
      blockedGenVoxel_eq v Sg isDil pads B2 p h2]
  · have hinner : blockedFlatVol v Sf false pads B1 = blockedFlatVol v Sf false pads B2 := by
      unfold blockedFlatVol
      congr 1
      funext p
      rw [hf v false B1 h1, hf v false B2 h2]
    rw [hinner]
    unfold blockedFlatVol
    congr 1
    funext p
    rw [hf _ true B1 h1, hf _ true B2 h2]

theorem tiling_block_size_invariance_witness :
    validB b111 ∧ validB b234 ∧
    blockedFlatVoxel exVol exFlat true pads0 b111 (0, 0, 0)
      = blockedFlatVoxel exVol exFlat true pads0 b234 (0, 0, 0) :=
  ⟨by decide, by decide,
    (tiling_block_size_invariance exVol exFlat exGen true pads0 b111 b234
      (by decide) (by decide)).1 (0, 0, 0)⟩

end Pygorpho

namespace Pygorpho

theorem range_flatMap_map {α : Type} (f : ℕ → α) (b : ℕ) :
    ∀ a : ℕ, (List.range a).flatMap
      (fun i => (List.range b).map (fun j => f (i * b + j)))
      = (List.range (a * b)).map f := by
  intro a
  induction a with
  | zero => simp
  | succ n ih =>
    rw [List.range_succ, List.flatMap_append, ih]
    have hnb : (n + 1) * b = n * b + b := by ring
    rw [hnb, List.range_add, List.map_append]
    congr 1
    simp only [List.flatMap_cons, List.flatMap_nil, List.append_nil, List.map_map]
    apply List.map_congr_left
    intro j hj
    simp [Function.comp]

theorem map_getD_range {α : Type} (l : List α) (d : α) :
    (List.range l.length).map (fun n => l.getD n d) = l := by
  induction l with
  | nil => simp
  | cons a t ih =>
    rw [List.length_cons, List.range_succ_eq_map, List.map_cons, List.map_map]
    have hc : ((fun n => (a :: t).getD n d) ∘ Nat.succ) = fun n => t.getD n d := by
      funext n
      simp [List.getD_cons_succ]
    rw [hc, ih]
    simp

theorem resizeData_length_self (l : List ℚ) : resizeData l.length l = l := by
  unfold resizeData
  have h : ∀ i ∈ List.range l.length, l.getD (i % l.length) 0 = l.getD i 0 := by
    intro i hi
    rw [List.mem_range] at hi
    rw [Nat.mod_eq_of_lt hi]
  rw [List.map_congr_left h, map_getD_range]

theorem flatMap_congr_left {α β : Type} {l : List α} {f g : α → List β}
    (h : ∀ a ∈ l, f a = g a) : l.flatMap f = l.flatMap g := by
  induction l with
  | nil => rfl
  | cons a t ih =>
    simp only [List.flatMap_cons]
    rw [h a (List.mem_cons_self a t),
      ih (fun x hx => h x (List.mem_cons_of_mem a hx))]

theorem fromVolF_toVolF (s : ℕ × ℕ × ℕ) (d : List ℚ)
    (h : d.length = prod3 s) : fromVolF (toVolF s d) = d := by
  have hval : ∀ i j k : ℕ, (toVolF s d).data ((i : ℤ), (j : ℤ), (k : ℤ))
      = d.getD ((i * s.2.1 + j) * s.2.2 + k) 0 := by
    intro i j k
    show (if 0 ≤ (i : ℤ) ∧ 0 ≤ (j : ℤ) ∧ 0 ≤ (k : ℤ) then
      d.getD (((i : ℤ).toNat * s.2.1 + (j : ℤ).toNat) * s.2.2 + (k : ℤ).toNat) 0
      else 0) = d.getD ((i * s.2.1 + j) * s.2.2 + k) 0
    rw [if_pos ⟨Int.natCast_nonneg i, Int.natCast_nonneg j, Int.natCast_nonneg k⟩]
    simp [Int.toNat_natCast]
  have hinner : ∀ i : ℕ,
      (List.range s.2.1).flatMap (fun j => (List.range s.2.2).map
        (fun k => d.getD ((i * s.2.1 + j) * s.2.2 + k) 0))
      = (List.range (s.2.1 * s.2.2)).map
        (fun m => d.getD (i * (s.2.1 * s.2.2) + m) 0) := by
    intro i
    rw [← range_flatMap_map (fun m => d.getD (i * (s.2.1 * s.2.2) + m) 0) s.2.2 s.2.1]
    apply flatMap_congr_left
    intro j _
    apply List.map_congr_left
    intro k _
    have harg : (i * s.2.1 + j) * s.2.2 + k = i * (s.2.1 * s.2.2) + (j * s.2.2 + k) := by
      ring
    rw [harg]
  calc fromVolF (toVolF s d)
      = (List.range s.1).flatMap (fun i => (List.range s.2.1).flatMap
        (fun j => (List.range s.2.2).map
          (fun k => d.getD ((i * s.2.1 + j) * s.2.2 + k) 0))) := by
        show (List.range s.1).flatMap (fun i => (List.range s.2.1).flatMap
          (fun j => (List.range s.2.2).map
            (fun k => (toVolF s d).data (Int.ofNat i, Int.ofNat j, Int.ofNat k)))) = _
        apply flatMap_congr_left
        intro i _
        apply flatMap_congr_left
        intro j _
        apply List.map_congr_left
        intro k _
        exact hval i j k
    _ = (List.range s.1).flatMap (fun i => (List.range (s.2.1 * s.2.2)).map
          (fun m => d.getD (i * (s.2.1 * s.2.2) + m) 0)) := by
        apply flatMap_congr_left
        intro i _
        exact hinner i
    _ = (List.range (s.1 * (s.2.1 * s.2.2))).map (fun n => d.getD n 0) :=
        range_flatMap_map (fun n => d.getD n 0) (s.2.1 * s.2.2) s.1
    _ = d := by
        have hl : s.1 * (s.2.1 * s.2.2) = d.length := by rw [h]; rfl
        rw [hl, map_getD_range]

theorem prod3_atleast3d (s : List ℕ) (hs : s.length ≤ 3) :
    prod3 (atleast3dShape s) = s.prod := by
  match s with
  | [] => simp [atleast3dShape, prod3]
  | [a] => simp [atleast3dShape, prod3]
  | [a, b] => simp [atleast3dShape, prod3]
  | [a, b, c] => simp [atleast3dShape, prod3, Nat.mul_assoc]
  | a :: b :: c :: e :: t => simp at hs

theorem linEngine_zero (v : VolF) (segs : List (Pos × ℤ)) (isDil : Bool)
    (pads : ℚ × ℚ) (h : ∀ s ∈ segs, s.2 = 0) :
    linEngine v segs isDil pads = v := by
  induction segs generalizing v with
  | nil => rfl
  | cons a t ih =>
    unfold linEngine
    simp only [List.foldl_cons]
    have ha : a.2 = 0 := h a (List.mem_cons_self a t)
    have hpass : linePass v a.1 a.2 isDil pads = v := by
      unfold linePass
      rw [if_pos (le_of_eq ha)]
    rw [hpass]
    exact ih v (fun s hs => h s (List.mem_cons_of_mem a hs))

/-- C7: dilating or eroding a volume with a line-segment set whose lengths
are all zero succeeds (no error is raised) and returns a volume identical to
the input, for any well-formed volume of at most three dimensions. -/
theorem zero_length_lines_identity (pads : ℚ × ℚ) (vol : NDArr)
    (line_steps : List (List ℤ)) (line_lens : List ℤ) (op : ℤ)
    (block_size : ℕ × ℕ × ℕ)
    (hwf : vol.data.length = vol.shape.prod) (hdim : vol.shape.length ≤ 3)
    (hrows : ∀ r ∈ line_steps, r.length = 3)
    (hcount : line_steps.length = line_lens.length)
    (hop : op = 0 ∨ op = 1) (hlens : ∀ l ∈ line_lens, l = 0) :
    linear_morph pads vol line_steps line_lens op block_size = .ok vol := by
  have hseg : ∀ s ∈ List.zip (line_steps.map rowToPos) line_lens, s.2 = 0 :=
    fun s hs => hlens s.2 (List.of_mem_zip hs).2
  simp only [linear_morph]
  rw [if_pos hop, if_pos hrows, if_pos hcount]
  rw [linEngine_zero _ _ _ _ hseg]
  rw [fromVolF_toVolF _ _ (by rw [hwf, prod3_atleast3d vol.shape hdim])]
  have hres : resizeData vol.shape.prod vol.data = vol.data := by
    rw [← hwf]
    exact resizeData_length_self vol.data
  rw [hres]
  cases vol
  rfl

theorem zero_length_lines_identity_witness :
    linear_morph pads0 ndVol [[1, 0, 0]] [0] 0 b111 = .ok ndVol :=
  zero_length_lines_identity pads0 ndVol [[1, 0, 0]] [0] 0 b111
    (by decide) (by decide) (by decide) (by decide) (Or.inl rfl) (by decide)

/-- C8: the new flat.linear_morph equals the old flat.linear_dilate_erode
applied to the step array with every row reversed: the new API flips each
step row before invoking the same engine entry point, while the old API
passes rows through unchanged. -/
theorem linear_api_refinement (pads : ℚ × ℚ) (vol : NDArr)
    (line_steps : List (List ℤ)) (line_lens : List ℤ) (op : ℤ)
    (block_size : ℕ × ℕ × ℕ) (hrows : ∀ r ∈ line_steps, r.length = 3) :
    linear_morph pads vol line_steps line_lens op block_size
      = linear_dilate_erode pads vol (line_steps.map List.reverse) line_lens
          op block_size := by
  unfold linear_morph linear_dilate_erode
  by_cases hop : op = 0 ∨ op = 1
  · rw [if_pos hop, if_pos hop]
    have hreg : ∀ r ∈ line_steps.map List.reverse,
        r.length = ((line_steps.map List.reverse).headD []).length := by
      cases line_steps with
      | nil => intro r hr; simp at hr
      | cons a t =>
        intro r hr
        simp only [List.map_cons, List.headD_cons]
        simp only [List.map_cons, List.mem_cons, List.mem_map] at hr
        rcases hr with hr | ⟨x, hx, hxr⟩
        · rw [hr]
        · rw [← hxr]
          simp only [List.length_reverse]
          rw [hrows x (List.mem_cons_of_mem a hx),
            hrows a (List.mem_cons_self a t)]
    rw [if_pos hrows, if_pos hreg]
    simp only [List.length_map]
    by_cases hcnt : line_steps.length = line_lens.length
    · rw [if_pos hcnt, if_pos hcnt]
      have hsteps : (line_steps.map List.reverse).map (fun r => rowToPos r.reverse)
          = line_steps.map rowToPos := by
        rw [List.map_map]
        apply List.map_congr_left
        intro r hr
        simp [Function.comp, List.reverse_reverse]
      rw [hsteps]
    · rw [if_neg hcnt, if_neg hcnt]
  · rw [if_neg hop, if_neg hop]

theorem linear_api_refinement_witness :
    linear_morph pads0 ndVol [[1, 2, 3]] [1] 0 b111
      = linear_dilate_erode pads0 ndVol ([[1, 2, 3]].map List.reverse) [1] 0 b111 :=
  linear_api_refinement pads0 ndVol [[1, 2, 3]] [1] 0 b111 (by decide)

end Pygorpho

namespace Pygorpho

theorem runWithStatus_ok {α : Type} {x y : α}
    (h : runWithStatus 0 x = Except.ok y) : x = y := by
  simpa [runWithStatus, raise_on_error] using h

/-- C2: for engine status codes 4 (no compute device) and 5 (uncaught
internal failure), raise_on_error returns the RuntimeError object instead of
raising it, so a wrapper that calls it goes on to return its (uninitialized)
result volume as if the call had succeeded; codes 1 to 3, in contrast, do
raise.  This contradicts the docstring of raise_on_error and the spec, which
require every failure to surface as a raised error. -/
theorem raise_on_error_code_bug :
    raise_on_error 4 = .retvalue (some (.runtimeError "no CUDA device available"))
    ∧ raise_on_error 5 = .retvalue (some (.runtimeError "an unaught C++ exception occured"))
    ∧ (∀ x : ℚ, runWithStatus 4 x = .ok x)
    ∧ (∀ x : ℚ, runWithStatus 5 x = .ok x)
    ∧ runWithStatus 1 (0 : ℚ) = .error (.valueError "invalid morhology operation code")
    ∧ runWithStatus 2 (0 : ℚ) = .error (.valueError "invalid type")
    ∧ runWithStatus 3 (0 : ℚ) = .error (.valueError "invalid device number") :=
  ⟨rfl, rfl, fun _ => rfl, fun _ => rfl, rfl, rfl, rfl⟩

/-- C3: the derived operations are exactly the stated compositions of the
two primitives: open is dilate after erode, close is erode after dilate,
tophat is the input minus its opening and bothat is the closing minus the
input, with the subtraction elementwise, both for the general API and for
the linear (line-segment) API. -/
theorem derived_ops_are_compositions (pads : ℚ × ℚ) (tvol : TypedArr)
    (vol : NDArr) (strel : NDArr) (line_steps : List (List ℤ))
    (line_lens : List ℤ) (b : ℕ × ℕ × ℕ) :
    genOpen pads tvol strel b
      = (gen_morph pads tvol strel ERODE b).bind
          (fun r => gen_morph pads r strel DILATE b)
    ∧ genClose pads tvol strel b
      = (gen_morph pads tvol strel DILATE b).bind
          (fun r => gen_morph pads r strel ERODE b)
    ∧ genTophat pads tvol strel b
      = (genOpen pads tvol strel b).map
          (fun o => ⟨tvol.dtype, tvol.shape, List.zipWith (· - ·) tvol.data o.data⟩)
    ∧ genBothat pads tvol strel b
      = (genClose pads tvol strel b).map
          (fun c => ⟨c.dtype, c.shape, List.zipWith (· - ·) c.data tvol.data⟩)
    ∧ linearOpen pads vol line_steps line_lens b
      = (linear_morph pads vol line_steps line_lens ERODE b).bind
          (fun r => linear_morph pads r line_steps line_lens DILATE b)
    ∧ linearClose pads vol line_steps line_lens b
      = (linear_morph pads vol line_steps line_lens DILATE b).bind
          (fun r => linear_morph pads r line_steps line_lens ERODE b)
    ∧ linearTophat pads vol line_steps line_lens b
      = (linearOpen pads vol line_steps line_lens b).map
          (fun o => ⟨vol.shape, List.zipWith (· - ·) vol.data o.data⟩)
    ∧ linearBothat pads vol line_steps line_lens b
      = (linearClose pads vol line_steps line_lens b).map
          (fun c => ⟨c.shape, List.zipWith (· - ·) c.data vol.data⟩) :=
  ⟨rfl, rfl, rfl, rfl, rfl, rfl, rfl, rfl⟩

/-- C4: every morphology entry point returns a volume whose shape equals the
shape of the volume as the caller passed it (before the internal promotion
to three dimensions), whenever it returns a result at all. -/
theorem shape_preservation (pads : ℚ × ℚ) (vol : NDArr) (tvol : TypedArr)
    (strel : NDArr) (line_steps : List (List ℤ)) (line_lens : List ℤ)
    (op : ℤ) (b : ℕ × ℕ × ℕ) :
    (∀ r : NDArr, flat_morph pads vol strel op b = .ok r → r.shape = vol.shape)
    ∧ (∀ r : TypedArr, gen_morph pads tvol strel op b = .ok r → r.shape = tvol.shape)
    ∧ (∀ r : NDArr, linear_morph pads vol line_steps line_lens op b = .ok r
        → r.shape = vol.shape) := by
  refine ⟨?_, ?_, ?_⟩
  · intro r hr
    simp only [flat_morph] at hr
    split at hr
    · rw [← runWithStatus_ok hr]
    · simp at hr
  · intro r hr
    simp only [gen_morph] at hr
    split at hr
    · split at hr
      · rw [← runWithStatus_ok hr]
      · simp at hr
    · simp at hr
  · intro r hr
    simp only [linear_morph] at hr
    split at hr
    · split at hr
      · split at hr
        · rw [← runWithStatus_ok hr]
        · simp at hr
      · simp at hr
    · simp at hr

theorem shape_preservation_witness :
    linear_morph pads0 ndVol [[1, 0, 0]] [2] 0 b111 = .ok ⟨[2], [0, 7]⟩
    ∧ ([2] : List ℕ) = ndVol.shape :=
  ⟨by decide,
    (shape_preservation pads0 ndVol volW ndStrel [[1, 0, 0]] [2] 0 b111).2.2
      ⟨[2], [0, 7]⟩ (by decide)⟩

/-- C6: an operation code outside the defined set is rejected with an
assertion error before any computation: flat.morph accepts only codes 0-5,
while gen.morph and linear_morph accept only DILATE and ERODE. -/
theorem invalid_op_rejected (pads : ℚ × ℚ) (vol : NDArr) (tvol : TypedArr)
    (strel : NDArr) (line_steps : List (List ℤ)) (line_lens : List ℤ)
    (op : ℤ) (b : ℕ × ℕ × ℕ) :
    (¬(op = 0 ∨ op = 1 ∨ op = 2 ∨ op = 3 ∨ op = 4 ∨ op = 5)
      → flat_morph pads vol strel op b = .error .assertionError)
    ∧ (¬(op = 0 ∨ op = 1)
      → gen_morph pads tvol strel op b = .error .assertionError)
    ∧ (¬(op = 0 ∨ op = 1)
      → linear_morph pads vol line_steps line_lens op b = .error .assertionError) := by
  refine ⟨fun h => ?_, fun h => ?_, fun h => ?_⟩
  · simp only [flat_morph, if_neg h]
  · simp only [gen_morph, if_neg h]
  · simp only [linear_morph, if_neg h]

theorem invalid_op_rejected_witness :
    ¬((99 : ℤ) = 0 ∨ (99 : ℤ) = 1 ∨ (99 : ℤ) = 2 ∨ (99 : ℤ) = 3
        ∨ (99 : ℤ) = 4 ∨ (99 : ℤ) = 5)
    ∧ flat_morph pads0 ndVol ndStrel 99 b111 = .error .assertionError
    ∧ gen_morph pads0 volW ndStrel 99 b111 = .error .assertionError
    ∧ linear_morph pads0 ndVol [[1, 0, 0]] [1] 99 b111 = .error .assertionError :=
  ⟨by decide,
    (invalid_op_rejected pads0 ndVol volW ndStrel [[1, 0, 0]] [1] 99 b111).1 (by decide),
    (invalid_op_rejected pads0 ndVol volW ndStrel [[1, 0, 0]] [1] 99 b111).2.1 (by decide),
    (invalid_op_rejected pads0 ndVol volW ndStrel [[1, 0, 0]] [1] 99 b111).2.2 (by decide)⟩

/-- C5: for every radius at least 0 and every valid approximation mode, the
ball approximator returns exactly 13 line segments: 13 step rows of three
integers each, and 13 integer lengths. -/
theorem flatBallApprox_thirteen_segments (radius mode : ℤ) (hr : 0 ≤ radius)
    (hm : mode = 0 ∨ mode = 1 ∨ mode = 2) :
    flatBallApprox radius mode = .ok (ballSteps, ballLens radius mode)
    ∧ ballSteps.length = 13
    ∧ (∀ row ∈ ballSteps, row.length = 3)
    ∧ (ballLens radius mode).length = 13 := by
  refine ⟨?_, by decide, by decide, ?_⟩
  · unfold flatBallApprox
    rw [if_pos hm]
    rfl
  · unfold ballLens
    rw [List.length_map]
    decide

theorem flatBallApprox_thirteen_segments_witness :
    (0 : ℤ) ≤ 2 ∧ ((1 : ℤ) = 0 ∨ (1 : ℤ) = 1 ∨ (1 : ℤ) = 2)
    ∧ flatBallApprox 2 1 = .ok (ballSteps, ballLens 2 1)
    ∧ (ballLens 2 1).length = 13 :=
  ⟨by decide, by decide,
    (flatBallApprox_thirteen_segments 2 1 (by decide) (by decide)).1,
    (flatBallApprox_thirteen_segments 2 1 (by decide) (by decide)).2.2.2⟩

/-- C9: gen.morph always casts the structuring element to the dtype of the
volume before the dtype-equality assertion, so that assertion can never
fail and a dtype mismatch is never reported; the only error the entry can
raise is the operation-code assertion.  In particular a fractional
structuring element paired with an integer volume is silently truncated
toward zero. -/
theorem gen_strel_cast_safety (pads : ℚ × ℚ) (vol : TypedArr) (strel : NDArr)
    (op : ℤ) (b : ℕ × ℕ × ℕ) :
    (castArr vol.dtype strel).dtype = vol.dtype
    ∧ (∀ e, gen_morph pads vol strel op b = .error e → ¬(op = 0 ∨ op = 1))
    ∧ (vol.dtype = Dtype.intT →
        (castArr vol.dtype strel).data
          = strel.data.map (fun q => ((ratTrunc q : ℤ) : ℚ))) := by
  refine ⟨rfl, ?_, ?_⟩
  · intro e he hop
    simp only [gen_morph, if_pos hop, castArr] at he
    simp only [runWithStatus, raise_on_error] at he
    simp at he
  · intro hd
    rw [hd]
    rfl

theorem gen_strel_cast_safety_witness :
    (castArr volW.dtype strelW).data
      = strelW.data.map (fun q => ((ratTrunc q : ℤ) : ℚ))
    ∧ strelW.data.map (fun q => ((ratTrunc q : ℤ) : ℚ)) = [(3 : ℚ)]
    ∧ (castArr volW.dtype strelW).dtype = volW.dtype :=
  ⟨(gen_strel_cast_safety pads0 volW strelW 0 b111).2.2 rfl,
    by decide,
    (gen_strel_cast_safety pads0 volW strelW 0 b111).1⟩

theorem getD_map_indicator : ∀ (l : List ℚ) (n : ℕ),
    ((l.map (fun q => if q = 0 then (0 : ℚ) else 1)).getD n 0 = 0 ↔ l.getD n 0 = 0)
  | [], n => by simp
  | a :: t, 0 => by
    by_cases ha : a = 0 <;> simp [ha]
  | a :: t, n + 1 => by
    simp only [List.map_cons, List.getD_cons_succ]
    exact getD_map_indicator t n

/-- C10: the flat entry point coerces the structuring element to boolean, so
any numeric structuring element is accepted with every nonzero entry
treated as included and every zero entry excluded: the operation on a
numeric mask equals the operation on its 0/1 indicator mask (and hence on
the corresponding boolean mask). -/
theorem flat_strel_bool_coercion (pads : ℚ × ℚ) (vol strel : NDArr) (op : ℤ)
    (b : ℕ × ℕ × ℕ) :
    flat_morph pads vol strel op b
      = flat_morph pads vol
          ⟨strel.shape, strel.data.map (fun q => if q = 0 then 0 else 1)⟩ op b := by
  simp only [flat_morph]
  by_cases hop : op = 0 ∨ op = 1 ∨ op = 2 ∨ op = 3 ∨ op = 4 ∨ op = 5
  · rw [if_pos hop, if_pos hop]
    have hS : (⟨(atleast3dShape strel.shape).1, (atleast3dShape strel.shape).2.1,
        (atleast3dShape strel.shape).2.2,
        fun ijk => decide (strel.data.getD (flatIdx (atleast3dShape strel.shape) ijk) 0 ≠ 0)⟩
          : FlatStrel)
        = ⟨(atleast3dShape strel.shape).1, (atleast3dShape strel.shape).2.1,
        (atleast3dShape strel.shape).2.2,
        fun ijk => decide ((strel.data.map (fun q => if q = 0 then (0 : ℚ) else 1)).getD
          (flatIdx (atleast3dShape strel.shape) ijk) 0 ≠ 0)⟩ := by
      congr 1
      funext ijk
      exact decide_eq_decide.mpr
        (not_congr (getD_map_indicator strel.data (flatIdx (atleast3dShape strel.shape) ijk)).symm)
    exact congrArg (fun S => runWithStatus (α := NDArr) 0
      ⟨vol.shape, resizeData vol.shape.prod (fromVolF (flatEngineOp
        (toVolF (atleast3dShape vol.shape) vol.data) S op b pads))⟩) hS
  · rw [if_neg hop, if_neg hop]

end Pygorpho
